import Mathlib

/-!
Verification of the resilient error-delivery pipeline of the
Error Explorer Node SDK (services: RateLimiter, CircuitBreaker,
QuotaManager, RetryManager, BatchManager, OfflineQueue,
CompressionService, and the EnhancedErrorReporter orchestrator).

Each service is shallowly embedded as a pure Lean function over an
explicit state record, translated from the TypeScript source.
Time (the JS `Date.now()` millisecond clock) is passed explicitly as a
`Nat` argument; comparisons that subtract timestamps are performed in
`Int`, matching JS number semantics on in-range values.  Asynchronous
operations are modelled by passing their outcomes (success / thrown
error) as explicit arguments; a thrown JS error is an `Except.error`
carrying the message.
-/

/-- Error reports are treated as abstract payloads, identified by a `Nat`.
    Serialized sizes (JSON.stringify lengths) are supplied externally,
    since serialization is outside the pipeline. -/
abbrev ErrorData := Nat

/-! ## RateLimiter (src/services/RateLimiter.ts)

A sliding-window counter over `{timestamp, successful}` request records. -/

namespace RateLimiter

/-- One entry of `RateLimiter.requests`: `{timestamp, successful}`. -/
structure RequestRecord where
  timestamp : Nat
  successful : Bool
deriving DecidableEq, Repr

/-- The `RateLimiter` class state: resolved options plus the
    `requests` array. -/
structure State where
  maxRequests : Nat
  windowMs : Nat
  skipSuccessful : Bool
  requests : List RequestRecord
deriving DecidableEq, Repr

/-- Constructor: options spread over the defaults
    `{maxRequests: 10, windowMs: 60000, skipSuccessful: true}`;
    `requests` starts empty.  A `none` field means the option was
    omitted by the caller. -/
def init (maxRequests? windowMs? : Option Nat) (skipSuccessful? : Option Bool) : State :=
  { maxRequests := maxRequests?.getD 10
    windowMs := windowMs?.getD 60000
    skipSuccessful := skipSuccessful?.getD true
    requests := [] }

/-- `cleanExpiredRequests`: keep records with `timestamp > now - windowMs`
    (JS arithmetic, hence the `Int` comparison). -/
def cleanExpiredRequests (s : State) (now : Nat) : State :=
  { s with requests :=
      s.requests.filter (fun req => (req.timestamp : Int) > (now : Int) - (s.windowMs : Int)) }

/-- `isAllowed()`: clean, then compare the count of relevant records
    (failed ones only when `skipSuccessful`) against `maxRequests`.
    Returns the verdict together with the cleaned state. -/
def isAllowed (s : State) (now : Nat) : Bool × State :=
  let s := cleanExpiredRequests s now
  let relevantRequests :=
    if s.skipSuccessful then s.requests.filter (fun req => !req.successful)
    else s.requests
  (relevantRequests.length < s.maxRequests, s)

/-- `recordRequest(successful)`: clean, then push `{timestamp: now, successful}`. -/
def recordRequest (s : State) (now : Nat) (successful : Bool) : State :=
  let s := cleanExpiredRequests s now
  { s with requests := s.requests ++ [⟨now, successful⟩] }

/-- All recorded requests are marked successful. -/
def allSuccessful (s : State) : Prop :=
  ∀ r ∈ s.requests, r.successful = true

instance (s : State) : Decidable (allSuccessful s) := by
  unfold allSuccessful; infer_instance

end RateLimiter

/-! ## CircuitBreaker (the class bundled in src/services/CompressionService.ts)

State machine over `{state, failureCount, lastFailureTime}`.  The wrapped
asynchronous call is modelled by its outcome: `success` when the raced
promise resolves, `failure` when it rejects or the per-call timeout wins
the race (both land in the same `catch` and are accounted identically). -/

namespace CircuitBreaker

inductive CBState where
  | CLOSED
  | OPEN
  | HALF_OPEN
deriving DecidableEq, Repr

/-- Outcome of racing the wrapped call against the per-call timeout. -/
inductive CallOutcome where
  | success
  | failure
deriving DecidableEq, Repr

/-- Result of `execute`: either the distinct synthetic
    "Circuit breaker is OPEN" error thrown *without invoking the wrapped
    function*, or completion of the wrapped call (re-raising its failure). -/
inductive ExecResult where
  | openError
  | completed (success : Bool)
deriving DecidableEq, Repr

/-- The `CircuitBreaker` class state (options and mutable fields). -/
structure State where
  failureThreshold : Nat
  resetTimeout : Nat
  state : CBState
  failureCount : Nat
  lastFailureTime : Nat
deriving DecidableEq, Repr

/-- Constructor: fresh breaker in `CLOSED` with zeroed counters. -/
def init (failureThreshold resetTimeout : Nat) : State :=
  { failureThreshold, resetTimeout
    state := .CLOSED, failureCount := 0, lastFailureTime := 0 }

/-- `recordFailure()`: increment the count, stamp the failure time, and
    open the breaker once the count reaches the threshold. -/
def recordFailure (s : State) (now : Nat) : State :=
  let failureCount := s.failureCount + 1
  { s with failureCount
           lastFailureTime := now
           state := if failureCount ≥ s.failureThreshold then .OPEN else s.state }

/-- The pre-check at the top of `execute`: while `OPEN`, either move to
    `HALF_OPEN` (zeroing the count) once `resetTimeout` has elapsed since
    the last failure, or throw the breaker-open error (`none`). -/
def admitCall (s : State) (now : Nat) : Option State :=
  match s.state with
  | .OPEN =>
      if (now : Int) - (s.lastFailureTime : Int) ≥ (s.resetTimeout : Int) then
        some { s with state := .HALF_OPEN, failureCount := 0 }
      else none
  | _ => some s

/-- The body of `execute` after admission: on success a `HALF_OPEN`
    breaker closes (count zeroed); on failure `recordFailure` runs and
    the error is re-thrown. -/
def runCall (s : State) (now : Nat) (outcome : CallOutcome) : ExecResult × State :=
  match outcome with
  | .success =>
      (ExecResult.completed true,
        if s.state = .HALF_OPEN then { s with state := .CLOSED, failureCount := 0 } else s)
  | .failure => (ExecResult.completed false, recordFailure s now)

/-- `execute(fn)` at instant `now`, where `outcome` is how the wrapped
    call would resolve were it invoked.  When the pre-check rejects, the
    wrapped function is never invoked, so the result is independent of
    `outcome` and the state is untouched. -/
def execute (s : State) (now : Nat) (outcome : CallOutcome) : ExecResult × State :=
  match admitCall s now with
  | none => (ExecResult.openError, s)
  | some s1 => runCall s1 now outcome

/-- Run a sequence of `execute` calls, each given as `(now, outcome)`. -/
def runCalls (s : State) : List (Nat × CallOutcome) → State
  | [] => s
  | (now, outcome) :: rest => runCalls (execute s now outcome).2 rest

end CircuitBreaker

/-! ## QuotaManager (src/services/QuotaManager.ts)

Daily/monthly counters plus a sliding burst window.  The wall-clock
calendar keys produced by `getDateKey`/`getMonthKey` are supplied as
abstract `Nat` keys alongside the millisecond instant `now` (the pipeline
only ever compares them for equality). -/

namespace QuotaManager

/-- The `QuotaConfig` options record. -/
structure Config where
  dailyLimit : Nat
  monthlyLimit : Nat
  payloadSizeLimit : Nat
  burstLimit : Nat
  burstWindowMs : Nat
deriving DecidableEq, Repr

/-- Mutable fields of the `QuotaManager` class. -/
structure State where
  config : Config
  dailyCount : Nat
  monthlyCount : Nat
  totalBytes : Nat
  burstTimestamps : List Nat
  lastResetDate : Nat
  lastResetMonth : Nat
deriving DecidableEq, Repr

/-- The answer of `canSendError` (the `quotaStats` snapshot it also
    returns is omitted: it carries no decision). -/
structure QuotaResult where
  allowed : Bool
  reason : Option String
deriving DecidableEq, Repr

/-- `cleanupBurstTimestamps()`: keep instants `> now - burstWindowMs`
    (JS arithmetic, hence `Int`). -/
def cleanupBurstTimestamps (s : State) (now : Nat) : State :=
  let kept := s.burstTimestamps.filter
    (fun (t : Nat) => (t : Int) > (now : Int) - (s.config.burstWindowMs : Int))
  { s with burstTimestamps := kept }

/-- `cleanupOldData()`: lazy calendar rollover (daily then monthly),
    followed by burst pruning.  `currentDate`/`currentMonth` are the keys
    derived from the present wall-clock instant. -/
def cleanupOldData (s : State) (now currentDate currentMonth : Nat) : State :=
  let s := if currentDate ≠ s.lastResetDate
           then { s with dailyCount := 0, lastResetDate := currentDate }
           else s
  let s := if currentMonth ≠ s.lastResetMonth
           then { s with monthlyCount := 0, totalBytes := 0, lastResetMonth := currentMonth }
           else s
  cleanupBurstTimestamps s now

/-- `canSendError(payloadSize)`: cleanup, then the four checks in source
    order, returning on the first failure. -/
def canSendError (s : State) (now currentDate currentMonth payloadSize : Nat) :
    QuotaResult × State :=
  let s := cleanupOldData s now currentDate currentMonth
  if payloadSize > s.config.payloadSizeLimit then
    ({ allowed := false
       reason := some ("Payload size (" ++ toString payloadSize ++ ") exceeds limit ("
                       ++ toString s.config.payloadSizeLimit ++ ")") }, s)
  else
    let s := cleanupBurstTimestamps s now
    if s.burstTimestamps.length ≥ s.config.burstLimit then
      ({ allowed := false, reason := some "Burst limit exceeded" }, s)
    else if s.dailyCount ≥ s.config.dailyLimit then
      ({ allowed := false, reason := some "Daily quota exceeded" }, s)
    else if s.monthlyCount ≥ s.config.monthlyLimit then
      ({ allowed := false, reason := some "Monthly quota exceeded" }, s)
    else
      ({ allowed := true, reason := none }, s)

/-- `recordUsage(payloadSize)`: cleanup, bump every counter, and stamp
    the burst window. -/
def recordUsage (s : State) (now currentDate currentMonth payloadSize : Nat) : State :=
  let s := cleanupOldData s now currentDate currentMonth
  { s with dailyCount := s.dailyCount + 1
           monthlyCount := s.monthlyCount + 1
           totalBytes := s.totalBytes + payloadSize
           burstTimestamps := s.burstTimestamps ++ [now] }

end QuotaManager

/-! ## RetryManager (the RetryManager source module)

`executeWithCallback` drives a while-loop of attempts; the outcome of the
`n`-th invocation of the wrapped operation (0-based) is supplied by the
`results` map.  `executeHttpRequest` instantiates the `onRetry` callback
with one that re-throws errors the classifier deems non-retryable. -/

namespace RetryManager

/-- The `RetryConfig` options record (`jitter` multiplies each delay by a
    uniform random factor in `[0.5, 1)`; the recorded delays below are the
    pre-jitter values `min(delay * base^(n-1), maxDelay)`). -/
structure Config where
  maxAttempts : Nat
  delay : Nat
  exponentialBase : Nat
  maxDelay : Option Nat
deriving DecidableEq, Repr

/-- What one call of the retry wrapper did: the delivered result (or the
    error finally thrown), how many times the wrapped operation was
    invoked, and the backoff delays awaited between attempts. -/
structure RunOutcome (α : Type) where
  result : Except String α
  attempts : Nat
  delays : List Nat
deriving Repr

/-- `calculateDelay(attempt)` before jitter:
    `min(delay * exponentialBase^(attempt-1), maxDelay)`. -/
def calculateDelay (cfg : Config) (attempt : Nat) : Nat :=
  let d := cfg.delay * cfg.exponentialBase ^ (attempt - 1)
  match cfg.maxDelay with
  | some m => min d m
  | none => d

/-- The retry loop of `executeWithCallback`, as used by
    `executeHttpRequest`: after a failed attempt (0-based index
    `attempt`, so the JS counter is `attempt + 1`), if attempts remain
    the `onRetry` callback re-throws when the classifier says the error
    is non-retryable, otherwise the computed delay is awaited and the
    loop continues.  `remaining` is `maxAttempts - attempt`. -/
def loop (cfg : Config) (isRetryable : String → Bool) (results : Nat → Except String α) :
    (remaining attempt : Nat) → (delays : List Nat) → RunOutcome α
  | 0, attempt, delays =>
      -- `while` guard false: the last stored error is thrown
      { result := .error "lastError", attempts := attempt, delays }
  | remaining + 1, attempt, delays =>
      match results attempt with
      | .ok v => { result := .ok v, attempts := attempt + 1, delays }
      | .error e =>
          if remaining = 0 then
            -- attempt + 1 ≥ maxAttempts: exhausted, throw the last error
            { result := .error e, attempts := attempt + 1, delays }
          else if !isRetryable e then
            -- onRetry re-throws: a non-retryable error propagates at once
            { result := .error e, attempts := attempt + 1, delays }
          else
            loop cfg isRetryable results remaining (attempt + 1)
              (delays ++ [calculateDelay cfg (attempt + 1)])

/-- `executeHttpRequest(op, isRetryableError)`. -/
def executeHttpRequest (cfg : Config) (isRetryable : String → Bool)
    (results : Nat → Except String α) : RunOutcome α :=
  loop cfg isRetryable results cfg.maxAttempts 0 []

end RetryManager

/-! ## BatchManager (the BatchManager source module)

`addToBatch` appends to `currentBatch`; reaching `batchSize` triggers
`flush()`, whose synchronous prologue (run before the first `await`)
copies the batch, empties `currentBatch`, and clears the pending timer.
The asynchronous tail then issues the send(s).  We model a call as
returning the post-prologue state together with the list of batch
payloads handed to the send function, in order.  Serialized sizes
(`JSON.stringify` byte lengths) are supplied by the external functions
`itemSize` (one report) and `batchBytes` (a whole batch array). -/

namespace BatchManager

/-- `BatchManager` state: resolved config plus `currentBatch` and whether
    a flush timer is armed (`batchTimeout` handle set) and whether a send
    function has been installed via `setSendFunction`. -/
structure State where
  batchSize : Nat
  maxPayloadSize : Option Nat
  currentBatch : List ErrorData
  timerArmed : Bool
  sendFnSet : Bool
deriving DecidableEq, Repr

/-- One step of the chunking loop of `sendBatchInChunks`: the accumulator
    is `(finished chunks, current chunk, current chunk byte size)`. -/
def chunkStep (itemSize : ErrorData → Nat) (maxBytes : Nat)
    (acc : List (List ErrorData) × List ErrorData × Nat) (e : ErrorData) :
    List (List ErrorData) × List ErrorData × Nat :=
  let (chunks, cur, curSize) := acc
  if curSize + itemSize e > maxBytes ∧ cur ≠ [] then
    (chunks ++ [cur], [e], itemSize e)
  else
    (chunks, cur ++ [e], curSize + itemSize e)

/-- `sendBatchInChunks`: greedy, insertion-order splitting into chunks
    that each fit under `maxPayloadSize`; the trailing chunk is flushed
    at the end. -/
def chunkBatch (itemSize : ErrorData → Nat) (maxBytes : Nat) (batch : List ErrorData) :
    List (List ErrorData) :=
  let acc := batch.foldl (chunkStep itemSize maxBytes) ([], [], 0)
  if acc.2.1 = [] then acc.1 else acc.1 ++ [acc.2.1]

/-- `flush()`: no-op when the batch is empty or no send function is set;
    otherwise swap the batch out (empty it, clear the timer) and send it,
    split into chunks when the serialized batch exceeds `maxPayloadSize`. -/
def flush (itemSize : ErrorData → Nat) (batchBytes : List ErrorData → Nat)
    (s : State) : State × List (List ErrorData) :=
  if s.currentBatch = [] ∨ ¬s.sendFnSet then (s, [])
  else
    let batchToSend := s.currentBatch
    let payloadSize := batchBytes batchToSend
    let s1 := { s with currentBatch := [], timerArmed := false }
    match s.maxPayloadSize with
    | some m =>
        if payloadSize > m then (s1, chunkBatch itemSize m batchToSend)
        else (s1, [batchToSend])
    | none => (s1, [batchToSend])

/-- `addToBatch(errorData)`: append; at `batchSize` trigger `flush()`
    (run here through its synchronous prologue), otherwise arm the
    timeout if none is pending. -/
def addToBatch (itemSize : ErrorData → Nat) (batchBytes : List ErrorData → Nat)
    (s : State) (e : ErrorData) : State × List (List ErrorData) :=
  let s1 := { s with currentBatch := s.currentBatch ++ [e] }
  if s1.currentBatch.length ≥ s1.batchSize then
    flush itemSize batchBytes s1
  else if s1.timerArmed then (s1, [])
  else ({ s1 with timerArmed := true }, [])

end BatchManager

/-! ## OfflineQueue (the OfflineQueue source module)

A FIFO list of `{id, data, timestamp, attempts}` entries mirrored to a
JSON file (persistence failures are logged and non-fatal, so the file is
not modelled).  `processQueue` holds a boolean `isProcessing` flag for
the whole drain; the flag is tested and set synchronously before the
first `await`, so a call overlapping a running drain observes the flag
and returns at once.  A drain is modelled atomically: the per-entry send
verdicts are supplied by `sendOk`, and the returned list is the data of
every sender invocation, in order. -/

namespace OfflineQueue

/-- One persisted entry (`QueuedError`). -/
structure QueuedError where
  id : Nat
  data : ErrorData
  timestamp : Nat
  attempts : Nat
deriving DecidableEq, Repr

/-- `OfflineQueue` state. -/
structure State where
  maxQueueSize : Nat
  maxRetries : Nat
  queue : List QueuedError
  isProcessing : Bool
deriving DecidableEq, Repr

/-- `enqueue(data)`: append a fresh entry (0 attempts), then drop the
    oldest entry if the queue overflowed. -/
def enqueue (s : State) (id : Nat) (data : ErrorData) (now : Nat) : State :=
  let q := s.queue ++ [⟨id, data, now, 0⟩]
  { s with queue := if q.length > s.maxQueueSize then q.drop 1 else q }

/-- `processQueue(sender)`: no-op when a drain is in flight or the queue
    is empty.  Otherwise every entry of the snapshot is sent exactly
    once; an entry leaves the queue when its send succeeded or its
    incremented `attempts` reached `maxRetries`, and failed survivors
    keep the incremented counter. -/
def processQueue (s : State) (sendOk : Nat → Bool) : State × List ErrorData :=
  if s.isProcessing ∨ s.queue = [] then (s, [])
  else
    let successfulIds :=
      (s.queue.filter (fun e => sendOk e.id ∨ e.attempts + 1 ≥ s.maxRetries)).map (·.id)
    let updated := s.queue.map
      (fun e => if sendOk e.id then e else { e with attempts := e.attempts + 1 })
    let kept := updated.filter (fun e => ¬ successfulIds.contains e.id)
    ({ s with queue := kept, isProcessing := false }, s.queue.map (·.data))

end OfflineQueue

/-! ## CompressionService (src/services/CompressionService.ts)

Strings are embedded as their UTF-8 byte sequences (`List Nat`, each
byte < 256).  `compress` returns the input unchanged when its byte
length is at or below the threshold, and otherwise returns the base64
text (as ASCII bytes) of the gzipped input; `decompress`
unconditionally base64-decodes its argument and un-gzips the result,
throwing when that fails.

The external `zlib` codec (a collaborator outside this pipeline) is
modelled by a header-tagged identity encoding: `gzipM` prepends the
two-byte gzip magic `1f 8b` that every real gzip stream carries, and
`gunzipM` strips it, failing on any input that does not start with it —
exactly the "incorrect header check" failure real `gunzip` raises on
non-gzip input.  Base64 is embedded in full (RFC 4648 alphabet, with
Node's lenient decoder that skips non-alphabet characters such as the
`=` padding and drops a trailing 6-bit fragment). -/

namespace CompressionService

/-- Base64 value (0–63) of an ASCII code, `none` for characters outside
    the alphabet (Node's decoder skips those). -/
def charVal (c : Nat) : Option Nat :=
  if 65 ≤ c ∧ c ≤ 90 then some (c - 65)        -- A–Z
  else if 97 ≤ c ∧ c ≤ 122 then some (c - 71)  -- a–z
  else if 48 ≤ c ∧ c ≤ 57 then some (c + 4)    -- 0–9
  else if c = 43 then some 62                   -- +
  else if c = 47 then some 63                   -- /
  else none

/-- ASCII code of the base64 character for a 6-bit value. -/
def valChar (v : Nat) : Nat :=
  if v < 26 then v + 65
  else if v < 52 then v + 71
  else if v < 62 then v - 4
  else if v = 62 then 43
  else 47

/-- Base64-encode a byte sequence (61 is the ASCII pad `=`). -/
def b64encode : List Nat → List Nat
  | x :: y :: z :: rest =>
      valChar (x / 4) :: valChar (x % 4 * 16 + y / 16) ::
      valChar (y % 16 * 4 + z / 64) :: valChar (z % 64) :: b64encode rest
  | [x, y] => [valChar (x / 4), valChar (x % 4 * 16 + y / 16), valChar (y % 16 * 4), 61]
  | [x] => [valChar (x / 4), valChar (x % 4 * 16), 61, 61]
  | [] => []

/-- Reassemble bytes from a stream of 6-bit values (padding already
    stripped); a trailing single value holds fewer than 8 bits and is
    dropped, as Node does. -/
def b64decodeVals : List Nat → List Nat
  | a :: b :: c :: d :: rest =>
      (a * 4 + b / 16) :: (b % 16 * 16 + c / 4) :: (c % 4 * 64 + d) :: b64decodeVals rest
  | [a, b, c] => [a * 4 + b / 16, b % 16 * 16 + c / 4]
  | [a, b] => [a * 4 + b / 16]
  | _ => []

/-- `Buffer.from(s, 'base64')`: skip non-alphabet characters, then
    reassemble. -/
def b64decode (s : List Nat) : List Nat :=
  b64decodeVals (s.filterMap charVal)

/-- The two magic bytes `1f 8b` opening every gzip stream. -/
def gzipMagic : List Nat := [31, 139]

/-- Model of the external `zlib.gzip`: tag the payload with the gzip
    magic (the codec's internals are outside the pipeline; only
    invertibility and the header check matter here). -/
def gzipM (data : List Nat) : List Nat := gzipMagic ++ data

/-- Model of the external `zlib.gunzip`: strip the magic, failing with
    zlib's header-check error on any input not produced by `gzipM`. -/
def gunzipM (data : List Nat) : Except String (List Nat) :=
  if data.take 2 = gzipMagic then .ok (data.drop 2)
  else .error "incorrect header check"

/-- `shouldCompress(data)`: strictly larger than the threshold. -/
def shouldCompress (threshold : Nat) (data : List Nat) : Bool :=
  data.length > threshold

/-- `compress(data)`: return short input unchanged, otherwise gzip and
    base64-encode. -/
def compress (threshold : Nat) (inputData : List Nat) : List Nat :=
  if ¬ shouldCompress threshold inputData then inputData
  else b64encode (gzipM inputData)

/-- `decompress(compressedData)`: base64-decode, then gunzip; a codec
    failure is re-thrown as `Failed to decompress data`. -/
def decompress (compressedData : List Nat) : Except String (List Nat) :=
  match gunzipM (b64decode compressedData) with
  | .ok out => .ok out
  | .error e => .error ("Failed to decompress data: " ++ e)

end CompressionService

/-! ## EnhancedErrorReporter.reportError (src/services/EnhancedErrorReporter.ts)

The orchestrator's public entry point.  After the `enabled` guard, the
whole body runs inside one `try`; the `catch` rebuilds the report and
adds it to the offline queue with a warning, never re-throwing.  The
body is embedded as an `Except`-valued function whose error carries the
state at the throw site (JS mutations before a throw persist), and
`reportError` wraps it with the catch handler.

External collaborators appear as explicit inputs: report construction
(the built `errorData`), the security validator's verdict and sanitized
copy, serialized sizes, the generated queue-entry id, and the outcome of
`sendErrorWithRetry` (the only awaited fallible operation in the `try`;
`compress` swallows its own failures, and a batched flush is started
without `await`, so its failures never reach this `catch`). -/

namespace Reporter

/-- How one `reportError` call ended (every constructor is a normal
    completion of the returned promise):
    `disabled`: the `enabled` guard returned early;
    `invalidDropped`: validation failed — `console.warn`, no queueing;
    `quotaQueued`: quota rejected — `console.warn` and enqueue;
    `rateLimitedDropped`: the rate limiter refused — plain `return`;
    `addedToBatch`: handed to the batch aggregator;
    `sentOk`: direct transport succeeded;
    `caughtQueued`: the `catch` ran — rebuilt report enqueued and
    `console.warn` issued with the carried message. -/
inductive ReportOutcome where
  | disabled
  | invalidDropped
  | quotaQueued (reason : String)
  | rateLimitedDropped
  | addedToBatch
  | sentOk
  | caughtQueued (msg : String)
deriving DecidableEq, Repr

/-- The orchestrator state touched by `reportError`. -/
structure State where
  rl : RateLimiter.State
  quota : Option QuotaManager.State
  batch : Option BatchManager.State
  oq : OfflineQueue.State
deriving DecidableEq, Repr

/-- The external inputs of one `reportError` call. -/
structure Input where
  report : ErrorData               -- the errorData built at the top of the try
  rebuilt : ErrorData              -- the errorData rebuilt inside the catch
  enabled : Bool
  hasValidator : Bool
  validationOk : Bool
  sanitized : ErrorData            -- result of sanitizeSensitiveData
  payloadSize : Nat                -- JSON.stringify(errorData).length
  now : Nat
  dateKey : Nat
  monthKey : Nat
  freshId : Nat                    -- id the queue generates on add
  itemSize : ErrorData → Nat       -- serialized size of one report
  batchBytes : List ErrorData → Nat -- serialized size of a batch array
  sendResult : Except String Unit  -- how sendErrorWithRetry resolves

/-- The tail of the `try` block after the quota step: rate limiting,
    compression, then batch-or-direct send. -/
def afterQuota (st : State) (data : ErrorData) (inp : Input) :
    Except (String × State) (State × ReportOutcome) :=
  let (allowed, rl1) := RateLimiter.isAllowed st.rl inp.now
  let st := { st with rl := rl1 }
  if ¬ allowed then .ok (st, .rateLimitedDropped)
  else
    -- compression only changes the payload representation handed to the
    -- transport; the transport outcome is already `inp.sendResult`
    match st.batch with
    | some bm =>
        let (bm1, _startedSends) := BatchManager.addToBatch inp.itemSize inp.batchBytes bm data
        -- the flush possibly started inside addToBatch is not awaited:
        -- its failures are invisible to this call
        .ok ({ st with batch := some bm1
                       rl := RateLimiter.recordRequest st.rl inp.now true }, .addedToBatch)
    | none =>
        match inp.sendResult with
        | .ok _ =>
            .ok ({ st with rl := RateLimiter.recordRequest st.rl inp.now true }, .sentOk)
        | .error e => .error (e, st)

/-- The `try` block of `reportError` (after the `enabled` guard):
    validation, sanitization, quota, then `afterQuota`. -/
def reportErrorBody (st : State) (inp : Input) :
    Except (String × State) (State × ReportOutcome) :=
  if inp.hasValidator ∧ ¬ inp.validationOk then .ok (st, .invalidDropped)
  else
    let data := if inp.hasValidator then inp.sanitized else inp.report
    match st.quota with
    | some qm =>
        let (res, qm1) :=
          QuotaManager.canSendError qm inp.now inp.dateKey inp.monthKey inp.payloadSize
        if res.allowed then
          let qm2 :=
            QuotaManager.recordUsage qm1 inp.now inp.dateKey inp.monthKey inp.payloadSize
          afterQuota { st with quota := some qm2 } data inp
        else
          .ok ({ st with quota := some qm1
                         oq := OfflineQueue.enqueue st.oq inp.freshId data inp.now },
               .quotaQueued (res.reason.getD ""))
    | none => afterQuota st data inp

/-- `reportError(error, context)`: the `enabled` guard, then the `try`
    body with the `catch` handler that queues the rebuilt report and
    warns, completing normally. -/
def reportError (st : State) (inp : Input) : State × ReportOutcome :=
  if ¬ inp.enabled then (st, .disabled)
  else
    match reportErrorBody st inp with
    | .ok r => r
    | .error (e, st1) =>
        ({ st1 with oq := OfflineQueue.enqueue st1.oq inp.freshId inp.rebuilt inp.now },
         .caughtQueued e)

end Reporter

/-! ## Concrete fixtures

Small closed states and inputs used to instantiate the theorems below on
concrete runs. -/

/-- An orchestrator state as built by `initializeServices` with neither
    quota nor batching configured and nothing recorded yet. -/
def plainState : Reporter.State :=
  { rl := { maxRequests := 10, windowMs := 60000, skipSuccessful := true, requests := [] }
    quota := none
    batch := none
    oq := { maxQueueSize := 100, maxRetries := 3, queue := [], isProcessing := false } }

/-- A `reportError` call whose transport attempt is rejected with an
    HTTP 500. -/
def failingSendInput : Reporter.Input :=
  { report := 7, rebuilt := 8
    enabled := true
    hasValidator := false, validationOk := true, sanitized := 7
    payloadSize := 0, now := 0, dateKey := 0, monthKey := 0, freshId := 1
    itemSize := fun _ => 0, batchBytes := fun _ => 0
    sendResult := .error "HTTP 500: Internal Server Error" }

/-- `plainState` with its transport rate window already exhausted: one
    failed request inside the window against `maxRequests = 1`. -/
def rateLimitedState : Reporter.State :=
  { plainState with
    rl := { maxRequests := 1, windowMs := 60000, skipSuccessful := true
            requests := [{ timestamp := 0, successful := false }] } }

/-- A `reportError` call whose transport would succeed if attempted. -/
def okSendInput : Reporter.Input := { failingSendInput with sendResult := .ok () }

/-! ## Helper lemmas -/

namespace CompressionService

/-- Decoding the character chosen for a 6-bit value recovers the value. -/
theorem charVal_valChar : ∀ v : Nat, v < 64 → charVal (valChar v) = some v := by decide

/-- Base64 round-trip on byte sequences. -/
theorem b64_roundtrip : ∀ l : List Nat, (∀ b ∈ l, b < 256) → b64decode (b64encode l) = l
  | [], _ => rfl
  | [x], h => by
      have hx : x < 256 := h x (by simp)
      have c1 := charVal_valChar (x / 4) (by omega)
      have c2 := charVal_valChar (x % 4 * 16) (by omega)
      simp only [b64encode, b64decode, List.filterMap, c1, c2]
      simp only [charVal, b64decodeVals]
      simp only [List.cons.injEq, and_true]
      omega
  | [x, y], h => by
      have hx : x < 256 := h x (by simp)
      have hy : y < 256 := h y (by simp)
      have c1 := charVal_valChar (x / 4) (by omega)
      have c2 := charVal_valChar (x % 4 * 16 + y / 16) (by omega)
      have c3 := charVal_valChar (y % 16 * 4) (by omega)
      simp only [b64encode, b64decode, List.filterMap, c1, c2, c3]
      simp only [charVal, b64decodeVals]
      simp only [List.cons.injEq, and_true]
      omega
  | x :: y :: z :: rest, h => by
      have hx : x < 256 := h x (by simp)
      have hy : y < 256 := h y (by simp)
      have hz : z < 256 := h z (by simp)
      have c1 := charVal_valChar (x / 4) (by omega)
      have c2 := charVal_valChar (x % 4 * 16 + y / 16) (by omega)
      have c3 := charVal_valChar (y % 16 * 4 + z / 64) (by omega)
      have c4 := charVal_valChar (z % 64) (by omega)
      have ih := b64_roundtrip rest (fun b hb => h b (by simp [hb]))
      simp only [b64decode] at ih
      simp only [b64encode, b64decode, List.filterMap, c1, c2, c3, c4, b64decodeVals, ih]
      simp only [List.cons.injEq]
      refine ⟨by omega, by omega, by omega, trivial⟩

end CompressionService

namespace BatchManager

/-- Invariant of the chunking fold: finished chunks plus the open chunk
    always hold exactly the reports consumed so far, in order. -/
theorem chunk_foldl_flatten (itemSize : ErrorData → Nat) (m : Nat) :
    ∀ (l : List ErrorData) (chunks : List (List ErrorData)) (cur : List ErrorData) (n : Nat),
      (l.foldl (chunkStep itemSize m) (chunks, cur, n)).1.flatten ++
        (l.foldl (chunkStep itemSize m) (chunks, cur, n)).2.1 =
      chunks.flatten ++ cur ++ l := by
  intro l
  induction l with
  | nil => intro chunks cur n; simp
  | cons e rest ih =>
      intro chunks cur n
      simp only [List.foldl_cons]
      by_cases hstep : n + itemSize e > m ∧ cur ≠ []
      · rw [show chunkStep itemSize m (chunks, cur, n) e = (chunks ++ [cur], [e], itemSize e) by
          simp [chunkStep, hstep]]
        rw [ih]
        simp
      · rw [show chunkStep itemSize m (chunks, cur, n) e = (chunks, cur ++ [e], n + itemSize e) by
          simp only [chunkStep]; rw [if_neg hstep]]
        rw [ih]
        simp

/-- Chunking partitions the batch: concatenating the chunks restores it. -/
theorem chunkBatch_flatten (itemSize : ErrorData → Nat) (m : Nat) (batch : List ErrorData) :
    (chunkBatch itemSize m batch).flatten = batch := by
  unfold chunkBatch
  have h := chunk_foldl_flatten itemSize m batch [] [] 0
  simp only [List.flatten_nil, List.nil_append] at h
  by_cases hc : (batch.foldl (chunkStep itemSize m) ([], [], 0)).2.1 = []
  · simp only [hc, if_pos rfl]
    rw [hc, List.append_nil] at h
    exact h
  · rw [if_neg hc]
    simpa using h

end BatchManager

namespace OfflineQueue

/-- A freshly enqueued report is present in the queue as long as the
    queue capacity is at least one entry: the FIFO overflow policy evicts the
    oldest entry, never the new one. -/
theorem enqueue_mem_data (s : State) (id : Nat) (data : ErrorData) (now : Nat)
    (hmax : 1 ≤ s.maxQueueSize) :
    data ∈ (enqueue s id data now).queue.map (·.data) := by
  have hmem : (⟨id, data, now, 0⟩ : QueuedError) ∈ (enqueue s id data now).queue := by
    simp only [enqueue]
    split
    next h =>
      have hlen : 1 ≤ s.queue.length := by
        simp only [List.length_append, List.length_cons, List.length_nil] at h
        omega
      rw [List.drop_append_of_le_length hlen]
      exact List.mem_append_right _ (by simp)
    next h =>
      exact List.mem_append_right _ (by simp)
  exact List.mem_map.mpr ⟨_, hmem, rfl⟩

end OfflineQueue

namespace RateLimiter

/-- Purging expired entries preserves the all-successful invariant. -/
theorem allSuccessful_clean (s : State) (now : Nat) (h : allSuccessful s) :
    allSuccessful (cleanExpiredRequests s now) := by
  intro r hr
  exact h r (List.mem_of_mem_filter hr)

/-- Recording a successful request preserves the all-successful invariant. -/
theorem allSuccessful_record (s : State) (now : Nat) (h : allSuccessful s) :
    allSuccessful (recordRequest s now true) := by
  intro r hr
  simp only [recordRequest] at hr
  rcases List.mem_append.mp hr with hl | hr1
  · exact allSuccessful_clean s now h r hl
  · simp only [List.mem_singleton] at hr1
    rw [hr1]

/-- With `skipSuccessful` on and a positive request budget, a limiter
    whose records are all successful always allows the next attempt. -/
theorem isAllowed_of_allSuccessful (s : State) (now : Nat)
    (hskip : s.skipSuccessful = true) (hpos : 0 < s.maxRequests)
    (h : allSuccessful s) : (isAllowed s now).1 = true := by
  simp only [isAllowed, cleanExpiredRequests, hskip, if_pos]
  have hnil : ((s.requests.filter
      (fun req => (req.timestamp : Int) > (now : Int) - (s.windowMs : Int))).filter
      (fun req => !req.successful)) = [] := by
    rw [List.filter_eq_nil_iff]
    intro r hr
    rw [h r (List.mem_of_mem_filter hr)]
    simp
  simp [hnil, hpos]

end RateLimiter

namespace QuotaManager

/-- Pruning the burst window twice at the same instant is the same as
    pruning it once. -/
theorem cleanupBurstTimestamps_idem (s : State) (now : Nat) :
    cleanupBurstTimestamps (cleanupBurstTimestamps s now) now =
      cleanupBurstTimestamps s now := by
  simp [cleanupBurstTimestamps, List.filter_filter]

end QuotaManager

/-! ## Claims -/

/-- C4: with `failureThreshold = 5`, five consecutive failed calls take
    a fresh breaker from CLOSED to OPEN; while OPEN and before
    `resetTimeout` has elapsed since the last failure, `execute` throws
    the distinct breaker-open error without invoking the wrapped
    function (result independent of the call's would-be outcome, state
    untouched); once `resetTimeout` has elapsed, the next call enters
    HALF_OPEN and, on success, returns the breaker to CLOSED with
    `failureCount = 0`. -/
theorem claim_C4_breaker_lifecycle :
    (∀ rt t1 t2 t3 t4 t5 : Nat,
      (CircuitBreaker.runCalls (CircuitBreaker.init 5 rt)
        [(t1, .failure), (t2, .failure), (t3, .failure), (t4, .failure),
         (t5, .failure)]).state = CircuitBreaker.CBState.OPEN ∧
      (CircuitBreaker.runCalls (CircuitBreaker.init 5 rt)
        [(t1, .failure), (t2, .failure), (t3, .failure), (t4, .failure),
         (t5, .failure)]).failureCount = 5) ∧
    (∀ (s : CircuitBreaker.State) (now : Nat) (outcome : CircuitBreaker.CallOutcome),
      s.state = CircuitBreaker.CBState.OPEN →
      (now : Int) - (s.lastFailureTime : Int) < (s.resetTimeout : Int) →
      CircuitBreaker.execute s now outcome = (CircuitBreaker.ExecResult.openError, s)) ∧
    (∀ (s : CircuitBreaker.State) (now : Nat),
      s.state = CircuitBreaker.CBState.OPEN →
      (now : Int) - (s.lastFailureTime : Int) ≥ (s.resetTimeout : Int) →
      CircuitBreaker.admitCall s now =
        some { s with state := CircuitBreaker.CBState.HALF_OPEN, failureCount := 0 } ∧
      CircuitBreaker.execute s now CircuitBreaker.CallOutcome.success =
        (CircuitBreaker.ExecResult.completed true,
         { s with state := CircuitBreaker.CBState.CLOSED, failureCount := 0 })) := by
  refine ⟨?_, ?_, ?_⟩
  · intro rt t1 t2 t3 t4 t5
    simp [CircuitBreaker.runCalls, CircuitBreaker.execute, CircuitBreaker.admitCall,
      CircuitBreaker.runCall, CircuitBreaker.recordFailure, CircuitBreaker.init]
  · intro s now outcome hstate htime
    simp [CircuitBreaker.execute, CircuitBreaker.admitCall, hstate, not_le.mpr htime]
  · intro s now hstate htime
    constructor
    · simp [CircuitBreaker.admitCall, hstate, htime]
    · simp [CircuitBreaker.execute, CircuitBreaker.admitCall, CircuitBreaker.runCall,
        hstate, htime]

/-- C4 witness: a concrete run — five failures at instants 0..4 open the
    breaker; at instant 10 the call is fast-failed with the breaker-open
    error and no state change; at instant 40000 (past the 30000 ms reset
    timeout) a successful trial closes the breaker with a zeroed count. -/
theorem claim_C4_breaker_lifecycle_witness :
    (CircuitBreaker.runCalls (CircuitBreaker.init 5 30000)
      [(0, .failure), (1, .failure), (2, .failure), (3, .failure),
       (4, .failure)]).state = CircuitBreaker.CBState.OPEN ∧
    CircuitBreaker.execute ⟨5, 30000, .OPEN, 5, 4⟩ 10 CircuitBreaker.CallOutcome.success =
      (CircuitBreaker.ExecResult.openError, ⟨5, 30000, .OPEN, 5, 4⟩) ∧
    CircuitBreaker.execute ⟨5, 30000, .OPEN, 5, 4⟩ 40000 CircuitBreaker.CallOutcome.success =
      (CircuitBreaker.ExecResult.completed true, ⟨5, 30000, .CLOSED, 0, 4⟩) :=
  ⟨(claim_C4_breaker_lifecycle.1 30000 0 1 2 3 4).1,
   claim_C4_breaker_lifecycle.2.1 ⟨5, 30000, .OPEN, 5, 4⟩ 10
     CircuitBreaker.CallOutcome.success rfl (by decide),
   (claim_C4_breaker_lifecycle.2.2 ⟨5, 30000, .OPEN, 5, 4⟩ 40000 rfl (by decide)).2⟩

/-- C3 counterexample: a reachable trace refuting the claim.  With
    threshold 5 and reset timeout 30000, five failures open the breaker
    (last failure at t = 4); the trial call at t = 40000 enters HALF_OPEN
    (count zeroed on entry) and fails — but the breaker stays HALF_OPEN
    with `failureCount = 1`, because the incremented count is below the
    threshold; the claimed HALF_OPEN→OPEN transition does not happen. -/
theorem claim_C3_counterexample :
    (CircuitBreaker.runCalls (CircuitBreaker.init 5 30000)
      [(0, .failure), (1, .failure), (2, .failure), (3, .failure),
       (4, .failure), (40000, .failure)]) =
      ⟨5, 30000, CircuitBreaker.CBState.HALF_OPEN, 1, 40000⟩ ∧
    (CircuitBreaker.runCalls (CircuitBreaker.init 5 30000)
      [(0, .failure), (1, .failure), (2, .failure), (3, .failure),
       (4, .failure), (40000, .failure)]).state ≠ CircuitBreaker.CBState.OPEN := by
  decide

/-- C3 amended: when the trial call of a HALF_OPEN breaker fails, the
    failure count is incremented and `lastFailureTime` is set to the
    failure instant, but the state moves to OPEN only if the incremented
    count reaches `failureThreshold`; otherwise the breaker remains
    HALF_OPEN (with the default threshold 5 it always remains HALF_OPEN,
    since entering HALF_OPEN zeroed the count). -/
theorem claim_C3_amended (s : CircuitBreaker.State) (now : Nat)
    (hstate : s.state = CircuitBreaker.CBState.HALF_OPEN) :
    CircuitBreaker.execute s now CircuitBreaker.CallOutcome.failure =
      (CircuitBreaker.ExecResult.completed false,
       { s with failureCount := s.failureCount + 1
                lastFailureTime := now
                state := if s.failureCount + 1 ≥ s.failureThreshold then
                    CircuitBreaker.CBState.OPEN
                  else CircuitBreaker.CBState.HALF_OPEN }) := by
  simp [CircuitBreaker.execute, CircuitBreaker.admitCall, CircuitBreaker.runCall,
    CircuitBreaker.recordFailure, hstate]

/-- C3 amended witness: the HALF_OPEN trial state of the counterexample
    trace (threshold 5, count zeroed on entry) fails at t = 40000 and the
    breaker remains HALF_OPEN with count 1. -/
theorem claim_C3_amended_witness :
    CircuitBreaker.execute ⟨5, 30000, .HALF_OPEN, 0, 4⟩ 40000
        CircuitBreaker.CallOutcome.failure =
      (CircuitBreaker.ExecResult.completed false, ⟨5, 30000, .HALF_OPEN, 1, 40000⟩) := by
  have h := claim_C3_amended ⟨5, 30000, .HALF_OPEN, 0, 4⟩ 40000 rfl
  simpa using h

/-- C8: when the pluggable classifier deems the first error
    non-retryable, the retry wrapper aborts at once: the wrapped
    operation is invoked exactly once, the error propagates to the
    caller, and no backoff delay is awaited. -/
theorem claim_C8_nonretryable_aborts {α : Type} (cfg : RetryManager.Config)
    (isRetryable : String → Bool) (results : Nat → Except String α) (e : String)
    (hpos : 0 < cfg.maxAttempts) (hfirst : results 0 = .error e)
    (hclass : isRetryable e = false) :
    RetryManager.executeHttpRequest cfg isRetryable results =
      { result := .error e, attempts := 1, delays := [] } := by
  unfold RetryManager.executeHttpRequest
  obtain ⟨n, hn⟩ : ∃ n, cfg.maxAttempts = n + 1 := ⟨cfg.maxAttempts - 1, by omega⟩
  rw [hn]
  cases n with
  | zero => simp [RetryManager.loop, hfirst]
  | succ m => simp [RetryManager.loop, hfirst, hclass]

/-- C8 witness: an HTTP 401 classified non-retryable under the default
    config (3 attempts) aborts after one invocation with no delay. -/
theorem claim_C8_nonretryable_aborts_witness :
    RetryManager.executeHttpRequest ⟨3, 1000, 2, some 30000⟩ (fun _ => false)
        (fun _ => (.error "HTTP 401: Unauthorized" : Except String Unit)) =
      { result := .error "HTTP 401: Unauthorized", attempts := 1, delays := [] } :=
  claim_C8_nonretryable_aborts ⟨3, 1000, 2, some 30000⟩ (fun _ => false)
    (fun _ => .error "HTTP 401: Unauthorized") "HTTP 401: Unauthorized"
    (by decide) rfl rfl

/-- C6: `canSendError` runs its four checks in order — payload size,
    burst window (counted on the list pruned of entries outside
    `burstWindowMs`), daily quota, monthly quota — short-circuiting on
    the first failure; the reason names that first failing check, and the
    request is allowed exactly when no check fails.  All counts are taken
    after the lazy calendar rollover (`cleanupOldData`). -/
theorem claim_C6_quota_check_order (s : QuotaManager.State)
    (now dk mk size : Nat) :
    ((QuotaManager.canSendError s now dk mk size).1.allowed = true ↔
      (¬ size > s.config.payloadSizeLimit ∧
       ¬ (QuotaManager.cleanupOldData s now dk mk).burstTimestamps.length ≥
           s.config.burstLimit ∧
       ¬ (QuotaManager.cleanupOldData s now dk mk).dailyCount ≥ s.config.dailyLimit ∧
       ¬ (QuotaManager.cleanupOldData s now dk mk).monthlyCount ≥ s.config.monthlyLimit)) ∧
    (QuotaManager.canSendError s now dk mk size).1.reason =
      (if size > s.config.payloadSizeLimit then
        some ("Payload size (" ++ toString size ++ ") exceeds limit ("
              ++ toString s.config.payloadSizeLimit ++ ")")
      else if (QuotaManager.cleanupOldData s now dk mk).burstTimestamps.length ≥
          s.config.burstLimit then some "Burst limit exceeded"
      else if (QuotaManager.cleanupOldData s now dk mk).dailyCount ≥
          s.config.dailyLimit then some "Daily quota exceeded"
      else if (QuotaManager.cleanupOldData s now dk mk).monthlyCount ≥
          s.config.monthlyLimit then some "Monthly quota exceeded"
      else none) := by
  have hconfig : (QuotaManager.cleanupOldData s now dk mk).config = s.config := by
    simp only [QuotaManager.cleanupOldData, QuotaManager.cleanupBurstTimestamps]
    split <;> split <;> rfl
  have hs2 : QuotaManager.cleanupBurstTimestamps
      (QuotaManager.cleanupOldData s now dk mk) now =
      QuotaManager.cleanupOldData s now dk mk := by
    simp only [QuotaManager.cleanupOldData]
    exact QuotaManager.cleanupBurstTimestamps_idem _ _
  simp only [QuotaManager.canSendError, hs2, hconfig]
  constructor
  · split_ifs <;> simp_all
  · split_ifs <;> rfl

/-- C7: `processQueue` is reentrant-safe.  A call made while the
    in-flight flag is set returns immediately: the sender is never
    invoked (no sends) and the state is untouched.  Consequently, when a
    drain starts from an idle queue, a second call issued against the
    mid-drain state (flag set, reset only in the `finally`) is a no-op,
    and the one drain pass sends each queued entry exactly once, in
    order. -/
theorem claim_C7_processQueue_reentrant :
    (∀ (s : OfflineQueue.State) (sendOk : Nat → Bool),
      s.isProcessing = true → OfflineQueue.processQueue s sendOk = (s, [])) ∧
    (∀ (s : OfflineQueue.State) (d1 d2 : Nat → Bool),
      s.isProcessing = false → s.queue ≠ [] →
      OfflineQueue.processQueue { s with isProcessing := true } d2 =
        ({ s with isProcessing := true }, []) ∧
      (OfflineQueue.processQueue s d1).2 = s.queue.map (·.data)) := by
  constructor
  · intro s sendOk h
    simp [OfflineQueue.processQueue, h]
  · intro s d1 d2 hflag hne
    constructor
    · simp [OfflineQueue.processQueue]
    · simp [OfflineQueue.processQueue, hflag, hne]

/-- C7 witness: a one-entry queue.  The mid-drain state ignores the
    second call; the real drain sends the single entry once. -/
theorem claim_C7_processQueue_reentrant_witness :
    OfflineQueue.processQueue
        { maxQueueSize := 100, maxRetries := 3,
          queue := [⟨1, 42, 0, 0⟩], isProcessing := true } (fun _ => true) =
      ({ maxQueueSize := 100, maxRetries := 3,
         queue := [⟨1, 42, 0, 0⟩], isProcessing := true }, []) ∧
    (OfflineQueue.processQueue
        { maxQueueSize := 100, maxRetries := 3,
          queue := [⟨1, 42, 0, 0⟩], isProcessing := false } (fun _ => true)).2 = [42] :=
  ⟨claim_C7_processQueue_reentrant.1 _ (fun _ => true) rfl,
   (claim_C7_processQueue_reentrant.2
      { maxQueueSize := 100, maxRetries := 3,
        queue := [⟨1, 42, 0, 0⟩], isProcessing := false }
      (fun _ => true) (fun _ => true) rfl (by simp)).2⟩

/-- Adding to an empty batch whose size trigger is at least 2 starts no
    send and leaves exactly the new report buffered. -/
theorem BatchManager.addToBatch_fresh (itemSize : ErrorData → Nat)
    (batchBytes : List ErrorData → Nat) (s : BatchManager.State) (e : ErrorData)
    (h : s.currentBatch = []) (hbs : 2 ≤ s.batchSize) :
    (BatchManager.addToBatch itemSize batchBytes s e).1.currentBatch = [e] ∧
    (BatchManager.addToBatch itemSize batchBytes s e).2 = [] := by
  have hlt : ¬ ([e].length ≥ s.batchSize) := by simp; omega
  unfold BatchManager.addToBatch
  simp only [h, List.nil_append, hlt, if_neg, ite_false]
  split <;> exact ⟨rfl, rfl⟩

/-- C5: with `batchSize = 3` and an installed send function, the first
    two adds to an empty batch start no send, the third triggers exactly
    one send holding all three reports (when the serialized batch is
    within `maxPayloadSize`), and the internal batch is empty immediately
    afterwards.  In general the synchronous prologue of `flush` empties
    the current batch before any send begins, the batches handed to the
    send function concatenate back to exactly the swapped-out batch (so
    no report occurs in two in-flight sends), and a report added after a
    flush lands in the fresh next batch. -/
theorem claim_C5_batch_flush (itemSize : ErrorData → Nat)
    (batchBytes : List ErrorData → Nat) :
    (∀ (s0 : BatchManager.State) (e1 e2 e3 : ErrorData),
      s0.batchSize = 3 → s0.currentBatch = [] → s0.sendFnSet = true →
      (∀ m, s0.maxPayloadSize = some m → batchBytes [e1, e2, e3] ≤ m) →
      (BatchManager.addToBatch itemSize batchBytes s0 e1).2 = [] ∧
      (BatchManager.addToBatch itemSize batchBytes
        (BatchManager.addToBatch itemSize batchBytes s0 e1).1 e2).2 = [] ∧
      (BatchManager.addToBatch itemSize batchBytes
        (BatchManager.addToBatch itemSize batchBytes
          (BatchManager.addToBatch itemSize batchBytes s0 e1).1 e2).1 e3).2 =
        [[e1, e2, e3]] ∧
      (BatchManager.addToBatch itemSize batchBytes
        (BatchManager.addToBatch itemSize batchBytes
          (BatchManager.addToBatch itemSize batchBytes s0 e1).1 e2).1 e3).1.currentBatch
        = []) ∧
    (∀ s : BatchManager.State, s.sendFnSet = true →
      (BatchManager.flush itemSize batchBytes s).1.currentBatch = [] ∧
      ((BatchManager.flush itemSize batchBytes s).2).flatten = s.currentBatch) ∧
    (∀ (s : BatchManager.State) (e : ErrorData), s.sendFnSet = true → 2 ≤ s.batchSize →
      (BatchManager.addToBatch itemSize batchBytes
        (BatchManager.flush itemSize batchBytes s).1 e).1.currentBatch = [e]) := by
  have hflush : ∀ s : BatchManager.State, s.sendFnSet = true →
      (BatchManager.flush itemSize batchBytes s).1.currentBatch = [] ∧
      (BatchManager.flush itemSize batchBytes s).1.batchSize = s.batchSize ∧
      (BatchManager.flush itemSize batchBytes s).1.sendFnSet = true ∧
      ((BatchManager.flush itemSize batchBytes s).2).flatten = s.currentBatch := by
    intro s hs
    unfold BatchManager.flush
    by_cases hempty : s.currentBatch = []
    · simp [hempty, hs]
    · rw [if_neg (by simp [hempty, hs])]
      rcases hm : s.maxPayloadSize with _ | m
      · simp [hs]
      · by_cases hp : batchBytes s.currentBatch > m
        · simp [hp, hs, BatchManager.chunkBatch_flatten]
        · simp [hp, hs]
  refine ⟨?_, fun s hs => ⟨(hflush s hs).1, (hflush s hs).2.2.2⟩, ?_⟩
  · intro s0 e1 e2 e3 h3 hempty hfn hsize
    obtain ⟨bs, mps, cb, ta, sfs⟩ := s0
    dsimp only at h3 hempty hfn hsize
    subst h3; subst hempty; subst hfn
    have step1 : BatchManager.addToBatch itemSize batchBytes ⟨3, mps, [], ta, true⟩ e1 =
        (⟨3, mps, [e1], true, true⟩, []) := by
      cases ta <;> simp [BatchManager.addToBatch]
    have step2 : BatchManager.addToBatch itemSize batchBytes ⟨3, mps, [e1], true, true⟩ e2 =
        (⟨3, mps, [e1, e2], true, true⟩, []) := by
      simp [BatchManager.addToBatch]
    have step3 : BatchManager.addToBatch itemSize batchBytes
        ⟨3, mps, [e1, e2], true, true⟩ e3 = (⟨3, mps, [], false, true⟩, [[e1, e2, e3]]) := by
      rcases mps with _ | m
      · simp [BatchManager.addToBatch, BatchManager.flush]
      · have hle : ¬ (batchBytes [e1, e2, e3] > m) := not_lt.mpr (hsize m rfl)
        simp [BatchManager.addToBatch, BatchManager.flush, hle]
    rw [step1, step2, step3]
    exact ⟨rfl, rfl, rfl, rfl⟩
  · intro s e hs hbs2
    have h1 := (hflush s hs).1
    have h2 := (hflush s hs).2.1
    have h3 := (hflush s hs).2.2.1
    exact (BatchManager.addToBatch_fresh itemSize batchBytes _ e h1 (h2 ▸ hbs2)).1

/-- C5 witness: batch trigger 3, payload cap 1000, unit sizes.  Three
    adds to an empty batch yield exactly one send `[[1, 2, 3]]` with an
    empty batch afterwards, and a report added after flushing a dirty
    batch lands alone in the fresh batch. -/
theorem claim_C5_batch_flush_witness :
    (BatchManager.addToBatch (fun _ => 1) (fun _ => 10)
      (BatchManager.addToBatch (fun _ => 1) (fun _ => 10)
        (BatchManager.addToBatch (fun _ => 1) (fun _ => 10)
          ⟨3, some 1000, [], false, true⟩ 1).1 2).1 3).2 = [[1, 2, 3]] ∧
    (BatchManager.addToBatch (fun _ => 1) (fun _ => 10)
      (BatchManager.addToBatch (fun _ => 1) (fun _ => 10)
        (BatchManager.addToBatch (fun _ => 1) (fun _ => 10)
          ⟨3, some 1000, [], false, true⟩ 1).1 2).1 3).1.currentBatch = [] ∧
    (BatchManager.addToBatch (fun _ => 1) (fun _ => 10)
      (BatchManager.flush (fun _ => 1) (fun _ => 10)
        ⟨3, some 1000, [5, 6], true, true⟩).1 9).1.currentBatch = [9] :=
  have h := (claim_C5_batch_flush (fun _ => 1) (fun _ => 10)).1
    ⟨3, some 1000, [], false, true⟩ 1 2 3 rfl rfl rfl
    (by intro m hm; simp only [Option.some.injEq] at hm; omega)
  ⟨h.2.2.1, h.2.2.2,
   (claim_C5_batch_flush (fun _ => 1) (fun _ => 10)).2.2
     ⟨3, some 1000, [5, 6], true, true⟩ 9 rfl (by decide)⟩

/-- C9 counterexample: the round-trip fails on short inputs.  The
    two-byte string "hi" (UTF-8 `[104, 105]`) is at or below the default
    1024-byte threshold, so `compress` returns it unchanged — but
    `decompress` unconditionally base64-decodes it and feeds the result
    to gunzip, which rejects it (no gzip header), so the round-trip
    throws instead of returning "hi". -/
theorem claim_C9_counterexample :
    CompressionService.compress 1024 [104, 105] = [104, 105] ∧
    CompressionService.decompress (CompressionService.compress 1024 [104, 105]) =
      .error "Failed to decompress data: incorrect header check" ∧
    CompressionService.decompress (CompressionService.compress 1024 [104, 105]) ≠
      .ok [104, 105] := by
  refine ⟨rfl, rfl, ?_⟩
  intro h
  rw [show CompressionService.decompress (CompressionService.compress 1024 [104, 105]) =
    .error "Failed to decompress data: incorrect header check" from rfl] at h
  exact Except.noConfusion h

/-- C9 amended: the compress/decompress round-trip holds exactly on the
    compressed branch.  For every byte sequence strictly longer than the
    threshold, `decompress (compress s) = s`; an input at or below the
    threshold is returned by `compress` unchanged (not base64-gzip), so
    `decompress` is not its inverse there (it base64-decodes and gunzips
    unconditionally). -/
theorem claim_C9_roundtrip_amended (threshold : Nat) (s : List Nat)
    (hbytes : ∀ b ∈ s, b < 256) :
    (threshold < s.length →
      CompressionService.decompress (CompressionService.compress threshold s) = .ok s) ∧
    (s.length ≤ threshold → CompressionService.compress threshold s = s) := by
  constructor
  · intro hlong
    have hgz : ∀ b ∈ CompressionService.gzipM s, b < 256 := by
      intro b hb
      rcases List.mem_append.mp hb with hmagic | hs
      · simp only [CompressionService.gzipMagic, List.mem_cons,
          List.mem_singleton, List.not_mem_nil, or_false] at hmagic
        rcases hmagic with h1 | h2 <;> omega
      · exact hbytes b hs
    unfold CompressionService.compress CompressionService.shouldCompress
    rw [if_neg (by simp [hlong])]
    unfold CompressionService.decompress
    rw [CompressionService.b64_roundtrip _ hgz]
    unfold CompressionService.gunzipM CompressionService.gzipM
    rw [if_pos (by simp [CompressionService.gzipMagic])]
    simp [CompressionService.gzipMagic]
  · intro hshort
    unfold CompressionService.compress CompressionService.shouldCompress
    rw [if_pos (by simp; omega)]

/-- C9 amended witness: with threshold 1 the two-byte input `[104, 105]`
    is actually compressed and rounds back; with threshold 1024 the same
    input is left unchanged by `compress`. -/
theorem claim_C9_roundtrip_amended_witness :
    CompressionService.decompress (CompressionService.compress 1 [104, 105]) =
      .ok [104, 105] ∧
    CompressionService.compress 1024 [104, 105] = [104, 105] :=
  ⟨(claim_C9_roundtrip_amended 1 [104, 105] (by decide)).1 (by decide),
   (claim_C9_roundtrip_amended 1024 [104, 105] (by decide)).2 (by decide)⟩

/-- Every rate-limiter state produced by `afterQuota` (rate-limit check,
    then batch-or-send with `recordRequest(true)`) keeps the
    all-successful invariant: the orchestrator only ever records
    successful outcomes. -/
theorem reporterAfterQuota_allSuccessful (st : Reporter.State) (data : ErrorData)
    (inp : Reporter.Input) (h : RateLimiter.allSuccessful st.rl) :
    (match Reporter.afterQuota st data inp with
     | .ok (st1, _) => RateLimiter.allSuccessful st1.rl
     | .error (_, st1) => RateLimiter.allSuccessful st1.rl) := by
  have hclean : RateLimiter.allSuccessful (RateLimiter.cleanExpiredRequests st.rl inp.now) :=
    RateLimiter.allSuccessful_clean st.rl inp.now h
  have hrec : RateLimiter.allSuccessful
      (RateLimiter.recordRequest (RateLimiter.cleanExpiredRequests st.rl inp.now)
        inp.now true) :=
    RateLimiter.allSuccessful_record _ inp.now hclean
  rcases hb : st.batch with _ | bm <;>
    rcases hs : inp.sendResult with e | u <;>
      simp only [Reporter.afterQuota, RateLimiter.isAllowed, hb, hs] <;>
        split_ifs <;> simp_all [RateLimiter.recordRequest]

/-- The `try` body of `reportError` preserves the all-successful
    rate-limiter invariant in every outcome, including at a throw site. -/
theorem reporterBody_allSuccessful (st : Reporter.State) (inp : Reporter.Input)
    (h : RateLimiter.allSuccessful st.rl) :
    (match Reporter.reportErrorBody st inp with
     | .ok (st1, _) => RateLimiter.allSuccessful st1.rl
     | .error (_, st1) => RateLimiter.allSuccessful st1.rl) := by
  unfold Reporter.reportErrorBody
  split_ifs with hv hval <;>
    first
      | exact h
      | (rcases hq : st.quota with _ | qm
         · simp only [hq]
           exact reporterAfterQuota_allSuccessful st _ inp h
         · simp only [hq]
           rcases hres : QuotaManager.canSendError qm inp.now inp.dateKey inp.monthKey
             inp.payloadSize with ⟨res, qm1⟩
           simp only [hres]
           by_cases hallow : res.allowed = true
           · rw [if_pos hallow]
             exact reporterAfterQuota_allSuccessful _ _ inp h
           · rw [if_neg hallow]
             exact h)

/-- C10: with `skipSuccessful` (the default) and a positive request
    budget, a rate limiter that has recorded only successful requests
    always answers `isAllowed = true`, whatever successful-request
    instants are folded in; and `reportError` itself only ever records
    successful requests, so it preserves that invariant — successful
    traffic alone can never trigger rate limiting. -/
theorem claim_C10_success_never_limited :
    (∀ (s0 : RateLimiter.State) (times : List Nat) (now : Nat),
      s0.skipSuccessful = true → 0 < s0.maxRequests → RateLimiter.allSuccessful s0 →
      (RateLimiter.isAllowed
        (times.foldl (fun s t => RateLimiter.recordRequest s t true) s0) now).1 = true) ∧
    (∀ (st : Reporter.State) (inp : Reporter.Input),
      RateLimiter.allSuccessful st.rl →
      RateLimiter.allSuccessful (Reporter.reportError st inp).1.rl) := by
  constructor
  · intro s0 times now hskip hpos hall
    have hfold : ∀ (ts : List Nat) (s : RateLimiter.State),
        s.skipSuccessful = true → 0 < s.maxRequests → RateLimiter.allSuccessful s →
        ((ts.foldl (fun s t => RateLimiter.recordRequest s t true) s).skipSuccessful = true ∧
         0 < (ts.foldl (fun s t => RateLimiter.recordRequest s t true) s).maxRequests ∧
         RateLimiter.allSuccessful
           (ts.foldl (fun s t => RateLimiter.recordRequest s t true) s)) := by
      intro ts
      induction ts with
      | nil => exact fun s h1 h2 h3 => ⟨h1, h2, h3⟩
      | cons t rest ih =>
          intro s h1 h2 h3
          simp only [List.foldl_cons]
          exact ih _ h1 h2 (RateLimiter.allSuccessful_record s t h3)
    obtain ⟨h1, h2, h3⟩ := hfold times s0 hskip hpos hall
    exact RateLimiter.isAllowed_of_allSuccessful _ now h1 h2 h3
  · intro st inp h
    have hbody := reporterBody_allSuccessful st inp h
    unfold Reporter.reportError
    split_ifs with he
    · rcases hb : Reporter.reportErrorBody st inp with ⟨st1, out⟩ | ⟨e, st1⟩ <;>
        rw [hb] at hbody <;> dsimp only at hbody <;> simp only [hb] <;> exact hbody
    · exact h

/-- C10 witness: sixty successful requests against the orchestrator's
    default window (60 per minute, skipSuccessful on) leave the limiter
    open, and `reportError` on a clean state keeps the invariant. -/
theorem claim_C10_success_never_limited_witness :
    (RateLimiter.isAllowed
      ((List.range 60).foldl (fun s t => RateLimiter.recordRequest s t true)
        (RateLimiter.init (some 60) (some 60000) none)) 60000).1 = true ∧
    RateLimiter.allSuccessful (Reporter.reportError plainState okSendInput).1.rl :=
  ⟨claim_C10_success_never_limited.1 (RateLimiter.init (some 60) (some 60000) none)
      (List.range 60) 60000 rfl (by decide) (by decide),
   claim_C10_success_never_limited.2 plainState okSendInput (by decide)⟩

/-- C1: no failure escapes `reportError`.  Whenever the `try` body
    throws — whatever state the pipeline had reached — the call still
    returns normally: the `catch` handler rebuilds the report, adds it to
    the offline queue, and completes with the warning outcome
    `caughtQueued`; the rebuilt report is then present in the queue
    (whenever the queue capacity is at least one entry). -/
theorem claim_C1_never_throws (st : Reporter.State) (inp : Reporter.Input)
    (e : String) (st1 : Reporter.State)
    (henabled : inp.enabled = true)
    (hbody : Reporter.reportErrorBody st inp = .error (e, st1)) :
    Reporter.reportError st inp =
      ({ st1 with oq := OfflineQueue.enqueue st1.oq inp.freshId inp.rebuilt inp.now },
       Reporter.ReportOutcome.caughtQueued e) ∧
    (1 ≤ st1.oq.maxQueueSize →
      inp.rebuilt ∈ (Reporter.reportError st inp).1.oq.queue.map (·.data)) := by
  have hcall : Reporter.reportError st inp =
      ({ st1 with oq := OfflineQueue.enqueue st1.oq inp.freshId inp.rebuilt inp.now },
       Reporter.ReportOutcome.caughtQueued e) := by
    unfold Reporter.reportError
    rw [if_neg (by simp [henabled]), hbody]
  refine ⟨hcall, fun hmax => ?_⟩
  rw [hcall]
  exact OfflineQueue.enqueue_mem_data st1.oq inp.freshId inp.rebuilt inp.now hmax

/-- C1 witness: a direct send failing with HTTP 500 on a plain state is
    caught; the rebuilt report (payload 8) ends up in the offline queue
    and the call returns normally with the warning outcome. -/
theorem claim_C1_never_throws_witness :
    Reporter.reportError plainState failingSendInput =
      ({ plainState with oq := OfflineQueue.enqueue plainState.oq 1 8 0 },
       Reporter.ReportOutcome.caughtQueued "HTTP 500: Internal Server Error") ∧
    (8 : ErrorData) ∈
      (Reporter.reportError plainState failingSendInput).1.oq.queue.map (·.data) :=
  have h := claim_C1_never_throws plainState failingSendInput
    "HTTP 500: Internal Server Error" plainState rfl rfl
  ⟨h.1, h.2 (by decide)⟩

/-- C2 counterexample: a rate-limited report is *not* enqueued.  On a
    state whose transport window is exhausted (one failed request against
    `maxRequests = 1`), `reportError` returns the rate-limited outcome
    with the offline queue still empty; the report is nowhere in the
    queue, contradicting the claim that it always ends up there. -/
theorem claim_C2_counterexample :
    (Reporter.reportError rateLimitedState okSendInput).2 =
      Reporter.ReportOutcome.rateLimitedDropped ∧
    (Reporter.reportError rateLimitedState okSendInput).1.oq.queue = [] ∧
    okSendInput.report ∉
      (Reporter.reportError rateLimitedState okSendInput).1.oq.queue.map (·.data) := by
  refine ⟨rfl, rfl, ?_⟩
  intro hmem
  rw [show (Reporter.reportError rateLimitedState okSendInput).1.oq.queue = [] from rfl]
    at hmem
  simp at hmem

/-- C2 amended: when the Transport Rate Window rejects
    (`isAllowed` = false) at `reportError`'s rate-limit check, the report
    is dropped, not enqueued: no transport attempt is made, the offline
    queue is left exactly as it was, and the call returns normally with
    the rate-limited outcome. -/
theorem claim_C2_rate_limited_dropped (st : Reporter.State) (inp : Reporter.Input)
    (henabled : inp.enabled = true)
    (hvalid : inp.hasValidator = true → inp.validationOk = true)
    (hquota : ∀ qm, st.quota = some qm →
      (QuotaManager.canSendError qm inp.now inp.dateKey inp.monthKey
        inp.payloadSize).1.allowed = true)
    (hrate : (RateLimiter.isAllowed st.rl inp.now).1 = false) :
    (Reporter.reportError st inp).2 = Reporter.ReportOutcome.rateLimitedDropped ∧
    (Reporter.reportError st inp).1.oq = st.oq := by
  have hAfter : ∀ (st' : Reporter.State) (data : ErrorData), st'.rl = st.rl →
      Reporter.afterQuota st' data inp =
        .ok ({ st' with rl := (RateLimiter.isAllowed st.rl inp.now).2 },
             Reporter.ReportOutcome.rateLimitedDropped) := by
    intro st' data hrl
    unfold Reporter.afterQuota
    rw [hrl]
    rcases hIA : RateLimiter.isAllowed st.rl inp.now with ⟨allowed, rl1⟩
    have hfalse : allowed = false := by rw [hIA] at hrate; exact hrate
    subst hfalse
    simp
  unfold Reporter.reportError
  rw [if_neg (by simp [henabled])]
  unfold Reporter.reportErrorBody
  rw [if_neg (fun hc => hc.2 (hvalid hc.1))]
  rcases hq : st.quota with _ | qm
  · simp only [hq]
    rw [hAfter st _ rfl]
    exact ⟨rfl, rfl⟩
  · simp only [hq]
    rcases hres : QuotaManager.canSendError qm inp.now inp.dateKey inp.monthKey
      inp.payloadSize with ⟨res, qm1⟩
    simp only [hres]
    have hallow : res.allowed = true := by
      have h2 := hquota qm hq
      rw [hres] at h2
      exact h2
    rw [if_pos hallow]
    rw [hAfter { st with quota := some (QuotaManager.recordUsage qm1 inp.now inp.dateKey
          inp.monthKey inp.payloadSize) } _ rfl]
    exact ⟨rfl, rfl⟩

/-- C2 amended witness: on the exhausted-window state, a report whose
    transport would have succeeded is dropped with the queue untouched. -/
theorem claim_C2_rate_limited_dropped_witness :
    (Reporter.reportError rateLimitedState okSendInput).2 =
      Reporter.ReportOutcome.rateLimitedDropped ∧
    (Reporter.reportError rateLimitedState okSendInput).1.oq = rateLimitedState.oq :=
  claim_C2_rate_limited_dropped rateLimitedState okSendInput rfl
    (fun h => by simp [okSendInput, failingSendInput] at h)
    (fun qm h => by simp [rateLimitedState, plainState] at h)
    (by decide)
